import Mathlib

/-!
Verification of the 8086 instruction decoder (`src/main.rs`).

The decoder is embedded shallowly: the input file is a `List Nat` of byte
values (each `< 256`), the byte iterator becomes explicit list passing, and
the `unwrap` panics of the Rust code become `Except DErr` errors:
`truncatedStream` for a missing required byte, `invalidEncoding` for the
`unreachable!()` panics on a bad fixed second byte, and `negativeTarget` for
the `checked_add_signed(..).unwrap()` panic on a negative branch target.
All names follow the Rust source where Lean allows it.
-/

inductive DErr where
  | truncatedStream
  | invalidEncoding
  | negativeTarget
deriving DecidableEq, Repr

-- Static name tables (src/main.rs lines 9-29).
def REG_NAMES : List (List String) :=
  [["al", "cl", "dl", "bl", "ah", "ch", "dh", "bh"],
   ["ax", "cx", "dx", "bx", "sp", "bp", "si", "di"]]

def R_M_NAMES : List String :=
  ["bx + si", "bx + di", "bp + si", "bp + di", "si", "di", "bp", "bx"]

def SEGMENT_NAMES : List String := ["es", "cs", "ss", "ds"]

def ASCII_ADJUST_NAMES : List String := ["aam", "aad"]

def BINARY_NAMES : List String := ["add", "or", "adc", "sbb", "and", "sub", "xor", "cmp"]

def CALL_NAMES : List String := ["call", "jmp"]

def LOGIC_NAMES : List String := ["rol", "ror", "rcl", "rcr", "shl", "shr", "N/A", "sar"]

def STACK_NAMES : List String := ["push", "pop"]

def UNARY_NAMES : List String := ["inc", "dec", "push", "pop"]

def NAMES_1111011W : List String := ["test", "N/A", "not", "neg", "mul", "imul", "div", "idiv"]

def NAMES_11111111 : List String := ["inc", "dec", "call", "call", "jmp", "jmp", "push", "N/A"]

def JUMP2_NAMES : List String := ["loopnz", "loopz", "loop", "jcxz"]

def JUMP4_NAMES : List String :=
  ["jo", "jno", "jb", "jnb", "je", "jne", "jbe", "jnbe",
   "js", "jns", "jp", "jnp", "jl", "jnl", "jle", "jnle"]

def REG_NAME (w reg : Nat) : String := (REG_NAMES.getD w []).getD reg ""

def R_M_NAME (r_m : Nat) : String := R_M_NAMES.getD r_m ""

def SEGMENT_NAME (sg : Nat) : String := SEGMENT_NAMES.getD sg ""

/-- `i8::from_le_bytes([b])` viewed as a mathematical integer. -/
def toI8 (b : Nat) : Int := if b < 128 then (b : Int) else (b : Int) - 256

/-- `i16::from_le_bytes([lo, hi])` viewed as a mathematical integer. -/
def toI16 (lo hi : Nat) : Int :=
  if lo + 256 * hi < 32768 then ((lo + 256 * hi : Nat) : Int)
  else ((lo + 256 * hi : Nat) : Int) - 65536

/-- `next_u8` (src/main.rs line 31): one byte or a truncated-stream failure. -/
def next_u8 : List Nat → Except DErr (Nat × List Nat)
  | [] => .error .truncatedStream
  | b :: rest => .ok (b, rest)

/-- `next_i8` (src/main.rs line 36). -/
def next_i8 (l : List Nat) : Except DErr (Int × List Nat) :=
  (next_u8 l).map fun p => (toI8 p.1, p.2)

/-- `next_i16` (src/main.rs line 41): two little-endian bytes if `w`,
else one sign-extended byte. -/
def next_i16 (w : Bool) (l : List Nat) : Except DErr (Int × List Nat) :=
  match next_u8 l with
  | .error e => .error e
  | .ok (lo, l1) =>
    if w then
      match next_u8 l1 with
      | .error e => .error e
      | .ok (hi, l2) => .ok (toI16 lo hi, l2)
    else .ok (toI8 lo, l1)

/-- The `disp.cmp(&0)` match at src/main.rs lines 69-73: positive renders
with " + ", negative with " - " and the negated value, zero with no offset. -/
def dispText (r_m : Nat) (disp : Int) : String :=
  if 0 < disp then "[" ++ R_M_NAME r_m ++ " + " ++ toString disp ++ "]"
  else if disp < 0 then "[" ++ R_M_NAME r_m ++ " - " ++ toString (-disp) ++ "]"
  else "[" ++ R_M_NAME r_m ++ "]"

/-- `disassemble_r_m` (src/main.rs lines 50-74). `m0d` is the 2-bit mode
field; values above 3 cannot occur (`byte2 >> 6 < 4`), mirroring the Rust
`unreachable!()`. -/
def disassemble_r_m (w m0d r_m : Nat) (l : List Nat) : Except DErr (String × List Nat) :=
  if m0d = 0 then
    if r_m = 6 then
      match next_i16 true l with
      | .error e => .error e
      | .ok (v, l1) => .ok ("[" ++ toString v ++ "]", l1)
    else .ok (dispText r_m 0, l)
  else if m0d = 1 then
    match next_i16 false l with
    | .error e => .error e
    | .ok (v, l1) => .ok (dispText r_m v, l1)
  else if m0d = 2 then
    match next_i16 true l with
    | .error e => .error e
    | .ok (v, l1) => .ok (dispText r_m v, l1)
  else if m0d = 3 then .ok (REG_NAME w r_m, l)
  else .error .invalidEncoding

/-- The mutable state of `run`'s decode loop (src/main.rs lines 80-87):
the `BTreeMap` of instructions, the label table (association in first-seen
order, standing in for the `HashMap`), the pending segment override and the
lock flag. -/
structure DState where
  instructions : List (Nat × String)
  labels : List (Nat × String)
  segment : String
  locked : Bool
deriving DecidableEq, Repr

def initState : DState := ⟨[], [], "", false⟩

/-- Association-list lookup by byte position (the map lookups of `run`). -/
def lookupN : List (Nat × String) → Nat → Option String
  | [], _ => none
  | (a, b) :: t, k => if a = k then some b else lookupN t k

/-- `BTreeMap::insert`: keep the association sorted by key, replacing an
existing key (during decode the keys are strictly increasing, so no
replacement ever happens). -/
def insertSorted (l : List (Nat × String)) (k : Nat) (v : String) : List (Nat × String) :=
  match l with
  | [] => [(k, v)]
  | (a, b) :: t =>
    if k < a then (k, v) :: (a, b) :: t
    else if k = a then (k, v) :: t
    else (a, b) :: insertSorted t k v

def addInstr (st : DState) (pos : Nat) (s : String) : DState :=
  { st with instructions := insertSorted st.instructions pos s }

/-- `labels.entry(target).or_insert_with(|| format!("label{length}"))` with
`length` the size of the table before the insertion (src/main.rs lines
383-384). -/
def addLabel (st : DState) (target : Nat) : String × DState :=
  match lookupN st.labels target with
  | some l => (l, st)
  | none =>
    let l := "label" ++ toString st.labels.length
    (l, { st with labels := st.labels ++ [(target, l)] })

-- Dispatch predicates, one per arm of the `match byte1` at src/main.rs
-- line 99, written as the union of the Rust range patterns.

/-- Arm at line 100: `00 <op> 0 D W`, TEST/XCHG/MOV reg-mem, LEA, LES, LDS. -/
abbrev isRegMemReg (b : Nat) : Prop :=
  (b < 0x40 ∧ b % 8 < 4) ∨ (0x84 ≤ b ∧ b ≤ 0x8B) ∨ b = 0x8D ∨ b = 0xC4 ∨ b = 0xC5

/-- Arm at line 158: immediate/grouped ops with a MOD OP R/M byte. -/
abbrev isImmRM (b : Nat) : Prop :=
  (0x80 ≤ b ∧ b ≤ 0x83) ∨ b = 0xC6 ∨ b = 0xC7 ∨ b = 0x8F ∨
  (0xD0 ≤ b ∧ b ≤ 0xD3) ∨ b = 0xF6 ∨ b = 0xF7 ∨ b = 0xFE ∨ b = 0xFF

/-- Arm at line 214: MOV immediate to register, `1011 W REG`. -/
abbrev isMovImmReg (b : Nat) : Prop := 0xB0 ≤ b ∧ b ≤ 0xBF

/-- Arm at line 227: accumulator forms (`00 <op> 10 W`, MOV, TEST, IN, OUT). -/
abbrev isAcc (b : Nat) : Prop :=
  (b < 0x40 ∧ (b % 8 = 4 ∨ b % 8 = 5)) ∨ (0xA0 ≤ b ∧ b ≤ 0xA3) ∨
  b = 0xA8 ∨ b = 0xA9 ∨ (0xE4 ≤ b ∧ b ≤ 0xE7)

/-- Arm at line 271: PUSH/POP/INC/DEC register, `010 OP REG`. -/
abbrev isUnaryReg (b : Nat) : Prop := 0x40 ≤ b ∧ b ≤ 0x5F

/-- Arm at line 282: PUSH/POP segment register. -/
abbrev isStackSeg (b : Nat) : Prop := b < 0x20 ∧ (b % 8 = 6 ∨ b % 8 = 7)

/-- Arm at line 297: segment-override byte. -/
abbrev isSegmentByte (b : Nat) : Prop := b = 0x26 ∨ b = 0x2E ∨ b = 0x36 ∨ b = 0x3E

/-- Arm at line 308: XCHG with accumulator. -/
abbrev isXchgAcc (b : Nat) : Prop := 0x90 ≤ b ∧ b ≤ 0x97

/-- Arm at line 317: IN/OUT with dx. -/
abbrev isInOutDx (b : Nat) : Prop := 0xEC ≤ b ∧ b ≤ 0xEF

/-- Arm at line 331: RET/RETF with 16-bit data. -/
abbrev isRetData (b : Nat) : Prop := b = 0xC2 ∨ b = 0xCA

/-- Arm at line 367: relative branches with an 8-bit displacement. -/
abbrev isShortJump (b : Nat) : Prop :=
  b = 0xEB ∨ (0xE0 ≤ b ∧ b ≤ 0xE3) ∨ (0x70 ≤ b ∧ b ≤ 0x7F)

/-- Arm at line 390: CALL/JMP direct within segment. -/
abbrev isNearCallJmp (b : Nat) : Prop := b = 0xE8 ∨ b = 0xE9

/-- Arm at line 406: CALL/JMP direct intersegment. -/
abbrev isFarCallJmp (b : Nat) : Prop := b = 0x9A ∨ b = 0xEA

/-- Arm at line 419: AAM/AAD, two fixed bytes. -/
abbrev isAsciiAdjust (b : Nat) : Prop := b = 0xD4 ∨ b = 0xD5

/-- The one-byte mnemonic table of the fallback arm (src/main.rs lines
435-465), `""` when the byte has no entry. The `lock` byte `0xF0` is
handled separately because it also sets the lock flag. -/
def fixedText (b : Nat) : String :=
  if b = 0xD7 then "xlat\n" else if b = 0x9F then "lahf\n" else if b = 0x9E then "sahf\n"
  else if b = 0x9C then "pushf\n" else if b = 0x9D then "popf\n" else if b = 0x37 then "aaa\n"
  else if b = 0x27 then "daa\n" else if b = 0x3F then "aas\n" else if b = 0x2F then "das\n"
  else if b = 0x98 then "cbw\n" else if b = 0x99 then "cwd\n" else if b = 0xC3 then "ret\n"
  else if b = 0xCB then "retf\n" else if b = 0xCC then "int3\n" else if b = 0xCE then "into\n"
  else if b = 0xCF then "iret\n" else if b = 0xF8 then "clc\n" else if b = 0xF5 then "cmc\n"
  else if b = 0xF9 then "stc\n" else if b = 0xFC then "cld\n" else if b = 0xFD then "std\n"
  else if b = 0xFA then "cli\n" else if b = 0xFB then "sti\n" else if b = 0xF4 then "hlt\n"
  else if b = 0x9B then "wait\n" else ""

/-- Binary digits of `n`, most significant first; fuel-driven so that the
kernel can evaluate it (the fuel `n` dominates the recursion depth). -/
def binDigitsAux : Nat → Nat → List Char
  | 0, _ => []
  | _ + 1, 0 => []
  | fuel + 1, n + 1 =>
    binDigitsAux fuel ((n + 1) / 2) ++ [if (n + 1) % 2 == 1 then '1' else '0']

def binString (n : Nat) : String :=
  if n = 0 then "0" else ⟨binDigitsAux n n⟩

/-- Rust `{:8b}` formatting: left-pad with spaces to width 8. -/
def pad8 (s : String) : String :=
  ⟨List.replicate (8 - s.length) ' '⟩ ++ s

/-- The diagnostic placeholder `format!("; {byte1:8b}\n")` for a byte that
matches no instruction family (src/main.rs line 468). -/
def commentText (b : Nat) : String := "; " ++ pad8 (binString b) ++ "\n"

/-- One iteration of the decode loop of `run` (src/main.rs lines 99-473):
dispatch on the leading byte `b` at stream position `pos`, consume operand
bytes from `rest`, and return the updated state with the remaining bytes.
The `release_lock` bookkeeping of lines 94-96/475-478 lives in
`decodeLoop`. -/
def step (pos b : Nat) (rest : List Nat) (st : DState) : Except DErr (DState × List Nat) :=
  if isRegMemReg b then
    -- LEA, LES and LDS use REG for the destination and are wide.
    let d := if b = 0x8D ∨ b = 0xC4 ∨ b = 0xC5 then 1 else (b >>> 1) &&& 1
    let w := if b = 0x8D ∨ b = 0xC4 ∨ b = 0xC5 then 1 else b &&& 1
    match next_u8 rest with
    | .error e => .error e
    | .ok (byte2, r1) =>
      let m0d := byte2 >>> 6
      let reg := (byte2 >>> 3) &&& 7
      let r_m := byte2 &&& 7
      let op_text :=
        if b = 0x8D then "lea" else if b = 0xC4 then "les" else if b = 0xC5 then "lds"
        else if b = 0x84 ∨ b = 0x85 then "test" else if b = 0x86 ∨ b = 0x87 then "xchg"
        else if 0x88 ≤ b ∧ b ≤ 0x8B then "mov"
        else BINARY_NAMES.getD ((b >>> 3) &&& 7) ""
      let reg_text := REG_NAME w reg
      match disassemble_r_m w m0d r_m r1 with
      | .error e => .error e
      | .ok (rmt, r2) =>
        let r_m_text := if st.segment ≠ "" then st.segment ++ ":" ++ rmt else rmt
        let st := if st.segment ≠ "" then { st with segment := "" } else st
        -- 1 = the REG field identifies the destination operand.
        if d = 1 ∧ st.locked = false then
          .ok (addInstr st pos (op_text ++ " " ++ reg_text ++ ", " ++ r_m_text ++ "\n"), r2)
        else
          .ok (addInstr st pos (op_text ++ " " ++ r_m_text ++ ", " ++ reg_text ++ "\n"), r2)
  else if isImmRM b then
    let group := b >>> 2
    let s_v := (b >>> 1) &&& 1
    let w := b &&& 1
    match next_u8 rest with
    | .error e => .error e
    | .ok (byte2, r1) =>
      let m0d := byte2 >>> 6
      let op := (byte2 >>> 3) &&& 7
      let r_m := byte2 &&& 7
      -- `(byte2 >> 3).trailing_zeros() >= 3` holds exactly when the 3-bit
      -- OP field is zero.
      let mov_test := group == 0x31 || (group == 0x3D && op == 0)
      let op_text :=
        if group = 0x23 then "pop" else if group = 0x31 then "mov"
        else if group = 0x20 then BINARY_NAMES.getD op ""
        else if group = 0x34 then LOGIC_NAMES.getD op ""
        else if group = 0x3D then NAMES_1111011W.getD op ""
        else NAMES_11111111.getD op ""
      let unit_text := if w = 1 then "word" else "byte"
      match disassemble_r_m w m0d r_m r1 with
      | .error e => .error e
      | .ok (rmt, r2) =>
        let r_m_text := if st.segment ≠ "" then st.segment ++ ":" ++ rmt else rmt
        let st := if st.segment ≠ "" then { st with segment := "" } else st
        if mov_test || group == 0x20 then
          match next_i16 ((mov_test || s_v == 0) && w == 1) r2 with
          | .error e => .error e
          | .ok (data, r3) =>
            .ok (addInstr st pos
              (op_text ++ " " ++ r_m_text ++ ", " ++ unit_text ++ " " ++ toString data ++ "\n"), r3)
        else if group = 0x34 then
          let count := if s_v = 0 then "1" else "cl"
          .ok (addInstr st pos
            (op_text ++ " " ++ unit_text ++ " " ++ r_m_text ++ ", " ++ count ++ "\n"), r2)
        else if b = 0xFF ∧ (op = 3 ∨ op = 5) then
          .ok (addInstr st pos (op_text ++ " " ++ unit_text ++ " far " ++ r_m_text ++ "\n"), r2)
        else
          .ok (addInstr st pos (op_text ++ " " ++ unit_text ++ " " ++ r_m_text ++ "\n"), r2)
  else if isMovImmReg b then
    let w := (b >>> 3) &&& 1
    let reg := b &&& 7
    match next_i16 (w == 1) rest with
    | .error e => .error e
    | .ok (data, r1) =>
      .ok (addInstr st pos ("mov " ++ REG_NAME w reg ++ ", " ++ toString data ++ "\n"), r1)
  else if isAcc b then
    let mov := b >>> 2 == 0x28
    let in_out := b >>> 2 == 0x39
    let e := (b >>> 1) &&& 1 == 0
    let w := b &&& 1 == 1
    match (if in_out then (next_u8 rest).map (fun p => ((p.1 : Int), p.2))
           else next_i16 (mov || w) rest) with
    | .error er => .error er
    | .ok (data, r1) =>
      let op_text :=
        if b >>> 1 = 0x50 ∨ b >>> 1 = 0x51 then "mov"
        else if b >>> 1 = 0x54 then "test"
        else if b >>> 1 = 0x72 then "in"
        else if b >>> 1 = 0x73 then "out"
        else BINARY_NAMES.getD ((b >>> 3) &&& 7) ""
      let acc_text := if w then "ax" else "al"
      -- MOV does "memory to accumulator", others do "immediate to accumulator".
      let data_text := if mov then "[" ++ toString data ++ "]" else toString data
      if e then .ok (addInstr st pos (op_text ++ " " ++ acc_text ++ ", " ++ data_text ++ "\n"), r1)
      else .ok (addInstr st pos (op_text ++ " " ++ data_text ++ ", " ++ acc_text ++ "\n"), r1)
  else if isUnaryReg b then
    let op := (b >>> 3) &&& 3
    let reg := b &&& 7
    .ok (addInstr st pos (UNARY_NAMES.getD op "" ++ " " ++ REG_NAME 1 reg ++ "\n"), rest)
  else if isStackSeg b then
    let sg := (b >>> 3) &&& 3
    let op := b &&& 1
    .ok (addInstr st pos (STACK_NAMES.getD op "" ++ " " ++ SEGMENT_NAME sg ++ "\n"), rest)
  else if isSegmentByte b then
    .ok ({ st with segment := SEGMENT_NAME ((b >>> 3) &&& 3) }, rest)
  else if isXchgAcc b then
    .ok (addInstr st pos ("xchg ax, " ++ REG_NAME 1 (b &&& 7) ++ "\n"), rest)
  else if isInOutDx b then
    let out := (b >>> 1) &&& 1 == 1
    let w := b &&& 1 == 1
    let acc_text := if w then "ax" else "al"
    if out then .ok (addInstr st pos ("out dx, " ++ acc_text ++ "\n"), rest)
    else .ok (addInstr st pos ("in " ++ acc_text ++ ", dx\n"), rest)
  else if isRetData b then
    let retf := (b >>> 3) &&& 1 == 1
    match next_i16 true rest with
    | .error e => .error e
    | .ok (data, r1) =>
      let op_text := if retf then "retf" else "ret"
      .ok (addInstr st pos (op_text ++ " " ++ toString data ++ "\n"), r1)
  else if b = 0xCD then
    match next_u8 rest with
    | .error e => .error e
    | .ok (data, r1) => .ok (addInstr st pos ("int " ++ toString data ++ "\n"), r1)
  else if b = 0xF3 then
    match next_u8 rest with
    | .error e => .error e
    | .ok (byte2, r1) =>
      let op := (byte2 >>> 1) &&& 7
      let w := byte2 &&& 1 == 1
      if op = 2 ∨ op = 3 ∨ op = 5 ∨ op = 6 ∨ op = 7 then
        let op_text :=
          if op = 2 then "movs" else if op = 3 then "cmps"
          else if op = 5 then "stos" else if op = 6 then "lods" else "scas"
        let unit_text := if w then "w" else "b"
        .ok (addInstr st pos ("rep " ++ op_text ++ unit_text ++ "\n"), r1)
      else .error .invalidEncoding
  else if isShortJump b then
    let group := b >>> 2
    match next_i8 rest with
    | .error e => .error e
    | .ok (ip_inc8, r1) =>
      let op_text :=
        if group = 0x3A then "jmp"
        else if group = 0x38 then JUMP2_NAMES.getD (b &&& 3) ""
        else JUMP4_NAMES.getD (b &&& 15) ""
      -- This instruction is 2 bytes; `checked_add_signed(..).unwrap()`.
      let t : Int := (pos : Int) + 2 + ip_inc8
      if t < 0 then .error .negativeTarget
      else
        let ls := addLabel st t.toNat
        .ok (addInstr ls.2 pos
          (op_text ++ " " ++ ls.1 ++ " ; " ++ toString ip_inc8 ++ " short\n"), r1)
  else if isNearCallJmp b then
    let op := b &&& 1
    match next_i16 true rest with
    | .error e => .error e
    | .ok (ip_inc, r1) =>
      let op_text := CALL_NAMES.getD op ""
      -- This instruction is 3 bytes.
      let t : Int := (pos : Int) + 3 + ip_inc
      if t < 0 then .error .negativeTarget
      else
        let ls := addLabel st t.toNat
        .ok (addInstr ls.2 pos
          (op_text ++ " " ++ ls.1 ++ " ; " ++ toString ip_inc ++ "\n"), r1)
  else if isFarCallJmp b then
    let op := (b >>> 6) &&& 1
    match next_i16 true rest with
    | .error e => .error e
    | .ok (ip, r1) =>
      match next_i16 true r1 with
      | .error e => .error e
      | .ok (cs, r2) =>
        .ok (addInstr st pos
          (CALL_NAMES.getD op "" ++ " " ++ toString cs ++ ":" ++ toString ip ++ "\n"), r2)
  else if isAsciiAdjust b then
    let op := b &&& 1
    match next_u8 rest with
    | .error e => .error e
    | .ok (byte2, r1) =>
      if byte2 = 0x0A then .ok (addInstr st pos (ASCII_ADJUST_NAMES.getD op "" ++ "\n"), r1)
      else .error .invalidEncoding
  else if b = 0xF0 then
    .ok (addInstr { st with locked := true } pos "lock ", rest)
  else if fixedText b ≠ "" then
    .ok (addInstr st pos (fixedText b), rest)
  else
    .ok (addInstr st pos (commentText b), rest)

/-- The `while let` loop of `run` (src/main.rs line 89), fuel-driven:
each iteration consumes at least the leading byte, so fuel equal to the
length of the byte list always suffices and the fuel-exhausted case is
unreachable from `decode`. A set lock flag is released at the end of the
following iteration (lines 94-96 and 475-478). -/
def decodeLoop : Nat → Nat → List Nat → DState → Except DErr DState
  | _, _, [], st => .ok st
  | 0, _, _ :: _, st => .ok st
  | fuel + 1, pos, b :: rest, st =>
    let releasing := st.locked
    match step pos b rest st with
    | .error e => .error e
    | .ok (st1, rest1) =>
      let st2 := if releasing then { st1 with locked := false } else st1
      decodeLoop fuel (pos + 1 + (rest.length - rest1.length)) rest1 st2

def decode (bytes : List Nat) : Except DErr DState :=
  decodeLoop bytes.length 0 bytes initState

/-- `pat.is_prefix_of`-style check on character lists. -/
def headMatches : List Char → List Char → Bool
  | [], _ => true
  | _ :: _, [] => false
  | a :: as, b :: bs => a == b && headMatches as bs

/-- `string.replacen(pat, repl, 1)` on character lists: replace the first
occurrence of `pat` (identity when `pat` does not occur). -/
def replF (pat repl : List Char) : List Char → List Char
  | [] => []
  | c :: cs =>
    if headMatches pat (c :: cs) then repl ++ (c :: cs).drop pat.length
    else c :: replF pat repl cs

def strReplaceFirst (s pat repl : String) : String :=
  ⟨replF pat.data repl.data s.data⟩

/-- The `unlabeled` table of `run` (src/main.rs lines 481-486): every
label whose target is not an instruction start, keyed by the label text
followed by a space. -/
def unlabeledOf (labels instrs : List (Nat × String)) : List (String × Nat) :=
  (labels.filter fun p => (lookupN instrs p.1).isNone).map fun p => (p.2 ++ " ", p.1)

/-- The substitution loop at src/main.rs lines 493-497. -/
def substUnlabeled (unl : List (String × Nat)) (s : String) : String :=
  unl.foldl (fun acc p => strReplaceFirst acc p.1 (toString p.2)) s

/-- One iteration of the emission loop (src/main.rs lines 489-499): a
label declaration when the position is a branch target, then the
instruction text with dangling labels replaced by numbers. -/
def emitEntry (labels : List (Nat × String)) (unl : List (String × Nat))
    (p : Nat × String) : String :=
  (match lookupN labels p.1 with
   | some lab => lab ++ ":\n"
   | none => "") ++ substUnlabeled unl p.2

/-- The output phase of `run` (src/main.rs lines 488-499). -/
def emit (st : DState) : String :=
  "bits 16\n" ++
    String.join (st.instructions.map
      (emitEntry st.labels (unlabeledOf st.labels st.instructions)))

/-- `run` (src/main.rs line 76) over an in-memory byte list: decode the
whole stream, then emit the directive line, label declarations and
instruction lines. A Rust panic (missing byte, bad fixed second byte,
negative branch target) is an `Except.error`. -/
def run (bytes : List Nat) : Except DErr String :=
  (decode bytes).map emit

/-- Decidable equality of decode results, for `decide`-based exhaustive
checks over all 256 leading bytes. -/
instance : DecidableEq (Except DErr String) := fun a b => by
  cases a <;> cases b <;>
    first
      | (rename_i x y; exact if h : x = y then isTrue (by rw [h]) else isFalse (by simp [h]))
      | exact isFalse (by simp)

/-- The leading bytes whose arm consumes at least one trailing byte
(every arm of the `match byte1` except the pure one-byte arms and the
fallback). -/
abbrev requiresTrailing (b : Nat) : Prop :=
  isRegMemReg b ∨ isImmRM b ∨ isMovImmReg b ∨ isAcc b ∨ isRetData b ∨
  b = 0xCD ∨ b = 0xF3 ∨ isShortJump b ∨ isNearCallJmp b ∨ isFarCallJmp b ∨ isAsciiAdjust b

/-- A leading byte that matches no instruction family: it reaches the
fallback arm and has no entry in the one-byte mnemonic table. -/
abbrev isUnknown (b : Nat) : Prop :=
  ¬isRegMemReg b ∧ ¬isImmRM b ∧ ¬isMovImmReg b ∧ ¬isAcc b ∧ ¬isUnaryReg b ∧
  ¬isStackSeg b ∧ ¬isSegmentByte b ∧ ¬isXchgAcc b ∧ ¬isInOutDx b ∧ ¬isRetData b ∧
  b ≠ 0xCD ∧ b ≠ 0xF3 ∧ ¬isShortJump b ∧ ¬isNearCallJmp b ∧ ¬isFarCallJmp b ∧
  ¬isAsciiAdjust b ∧ b ≠ 0xF0 ∧ fixedText b = ""

theorem lookupN_mem {k : Nat} {v : String} :
    ∀ {l : List (Nat × String)}, lookupN l k = some v → (k, v) ∈ l := by
  intro l
  induction l with
  | nil => intro h; simp [lookupN] at h
  | cons hd tl ih =>
    intro h
    obtain ⟨a, b⟩ := hd
    by_cases hk : a = k
    · subst hk
      simp [lookupN] at h
      simp [h]
    · simp [lookupN, hk] at h
      exact List.mem_cons_of_mem _ (ih h)

theorem lookupN_ne_none {l : List (Nat × String)} {p : Nat × String}
    (h : p ∈ l) : lookupN l p.1 ≠ none := by
  induction l with
  | nil => simp at h
  | cons hd tl ih =>
    obtain ⟨a, b⟩ := hd
    rcases List.mem_cons.mp h with h1 | h2
    · subst h1; simp [lookupN]
    · by_cases hk : a = p.1
      · simp [lookupN, hk]
      · simp [lookupN, hk]; exact ih h2

theorem nodupSnd_eq {l : List (Nat × String)} {a b : Nat} {v : String}
    (ha : (a, v) ∈ l) (hb : (b, v) ∈ l) (h : (l.map Prod.snd).Nodup) : a = b := by
  induction l with
  | nil => simp at ha
  | cons hd tl ih =>
    simp only [List.map_cons, List.nodup_cons] at h
    obtain ⟨hnotin, hnd⟩ := h
    rcases List.mem_cons.mp ha with ha1 | ha2 <;> rcases List.mem_cons.mp hb with hb1 | hb2
    · have heq : (a, v) = (b, v) := ha1.trans hb1.symm
      exact congrArg Prod.fst heq
    · exfalso
      apply hnotin
      rw [← ha1]
      exact List.mem_map.mpr ⟨(b, v), hb2, rfl⟩
    · exfalso
      apply hnotin
      rw [← hb1]
      exact List.mem_map.mpr ⟨(a, v), ha2, rfl⟩
    · exact ih ha2 hb2 hnd


-- Structural facts about the byte readers: a successful read pins down the
-- consumed bytes, and every strict truncation of them fails with
-- `truncatedStream` while longer tails succeed with the same value.

theorem next_u8_ok {l : List Nat} {v : Nat} {l2 : List Nat}
    (h : next_u8 l = .ok (v, l2)) : l = v :: l2 := by
  cases l with
  | nil => simp [next_u8] at h
  | cons a t => simp [next_u8] at h; simp [h.1, h.2]

theorem next_i8_ok {l : List Nat} {v : Int} {l2 : List Nat}
    (h : next_i8 l = .ok (v, l2)) : ∃ a, l = a :: l2 := by
  cases l with
  | nil => simp [next_i8, next_u8, Except.map] at h
  | cons a t =>
    simp [next_i8, next_u8, Except.map] at h
    exact ⟨a, by simp [h.2]⟩

theorem next_i16_nil (w : Bool) : next_i16 w [] = .error .truncatedStream := rfl

theorem eq_ok_snd {ε α β : Type} {x : α} {r : β} {out : α × β}
    (h : (Except.ok (x, r) : Except ε (α × β)) = .ok out) : out.2 = r := by
  have h2 := h.symm
  injection h2 with h3
  rw [h3]

theorem ite_ok_snd {ε α β : Type} {c : Prop} [Decidable c] {x y : α} {r : β}
    {out : α × β}
    (h : (if c then (Except.ok (x, r) : Except ε (α × β)) else .ok (y, r)) = .ok out) :
    out.2 = r := by
  by_cases hc : c
  · rw [if_pos hc] at h
    exact eq_ok_snd h
  · rw [if_neg hc] at h
    exact eq_ok_snd h

theorem next_i16_ok {w : Bool} {l : List Nat} {v : Int} {l2 : List Nat}
    (h : next_i16 w l = .ok (v, l2)) :
    (∃ a, l = a :: l2 ∧ next_i16 w [] = .error .truncatedStream ∧
       ∀ t, next_i16 w (a :: t) = .ok (v, t)) ∨
    (∃ a bb, l = a :: bb :: l2 ∧ next_i16 w [] = .error .truncatedStream ∧
       (∀ a2, next_i16 w [a2] = .error .truncatedStream) ∧
       ∀ t, next_i16 w (a :: bb :: t) = .ok (v, t)) := by
  cases w with
  | false =>
    cases l with
    | nil => simp [next_i16, next_u8] at h
    | cons a t =>
      simp [next_i16, next_u8] at h
      exact .inl ⟨a, by simp [h.2], rfl, fun t2 => by simp [next_i16, next_u8, h.1]⟩
  | true =>
    cases l with
    | nil => simp [next_i16, next_u8] at h
    | cons a t =>
      cases t with
      | nil => simp [next_i16, next_u8] at h
      | cons bb t2 =>
        simp [next_i16, next_u8] at h
        refine .inr ⟨a, bb, by simp [h.2], rfl, fun a2 => rfl,
          fun t3 => by simp [next_i16, next_u8, h.1]⟩

theorem disassemble_r_m_ok {w m0d r_m : Nat} {l : List Nat} {v : String} {l2 : List Nat}
    (h : disassemble_r_m w m0d r_m l = .ok (v, l2)) :
    (l2 = l ∧ ∀ t, disassemble_r_m w m0d r_m t = .ok (v, t)) ∨
    (∃ a, l = a :: l2 ∧ disassemble_r_m w m0d r_m [] = .error .truncatedStream ∧
       ∀ t, disassemble_r_m w m0d r_m (a :: t) = .ok (v, t)) ∨
    (∃ a bb, l = a :: bb :: l2 ∧ disassemble_r_m w m0d r_m [] = .error .truncatedStream ∧
       (∀ a2, disassemble_r_m w m0d r_m [a2] = .error .truncatedStream) ∧
       ∀ t, disassemble_r_m w m0d r_m (a :: bb :: t) = .ok (v, t)) := by
  by_cases h0 : m0d = 0
  · subst h0
    by_cases h6 : r_m = 6
    · subst h6
      rw [disassemble_r_m] at h
      simp only [if_pos rfl] at h
      cases hn : next_i16 true l with
      | error e => rw [hn] at h; cases h
      | ok p =>
        obtain ⟨x, l1⟩ := p
        rw [hn] at h
        obtain ⟨hv, hl2⟩ : "[" ++ toString x ++ "]" = v ∧ l1 = l2 := by simpa using h
        subst hv
        subst hl2
        rcases next_i16_ok hn with ⟨a, hla, hnil, hok⟩ | ⟨a, bb, hla, hnil, hone, hok⟩
        · subst hla
          refine .inr (.inl ⟨a, rfl, rfl, fun t => ?_⟩)
          rw [disassemble_r_m]
          simp [hok t]
        · subst hla
          refine .inr (.inr ⟨a, bb, rfl, rfl, fun a2 => ?_, fun t => ?_⟩)
          · rw [disassemble_r_m]
            simp [hone a2]
          · rw [disassemble_r_m]
            simp [hok t]
    · rw [disassemble_r_m] at h
      simp only [if_pos rfl, if_neg h6] at h
      obtain ⟨hv, hl2⟩ : dispText r_m 0 = v ∧ l = l2 := by simpa using h
      subst hv
      subst hl2
      refine .inl ⟨rfl, fun t => ?_⟩
      rw [disassemble_r_m]
      simp [h6]
  · by_cases h1 : m0d = 1
    · subst h1
      rw [disassemble_r_m] at h
      simp only [show ¬(1 = 0) by omega, if_false, if_pos rfl, ite_false] at h
      cases hn : next_i16 false l with
      | error e => rw [hn] at h; cases h
      | ok p =>
        obtain ⟨x, l1⟩ := p
        rw [hn] at h
        obtain ⟨hv, hl2⟩ : dispText r_m x = v ∧ l1 = l2 := by simpa using h
        subst hv
        subst hl2
        rcases next_i16_ok hn with ⟨a, hla, hnil, hok⟩ | ⟨a, bb, hla, hnil, hone, hok⟩
        · subst hla
          refine .inr (.inl ⟨a, rfl, rfl, fun t => ?_⟩)
          rw [disassemble_r_m]
          simp [hok t]
        · subst hla
          refine .inr (.inr ⟨a, bb, rfl, rfl, fun a2 => ?_, fun t => ?_⟩)
          · rw [disassemble_r_m]
            simp [hone a2]
          · rw [disassemble_r_m]
            simp [hok t]
    · by_cases h2 : m0d = 2
      · subst h2
        rw [disassemble_r_m] at h
        simp only [show ¬(2 = 0) by omega, show ¬(2 = 1) by omega, if_false, if_pos rfl,
          ite_false] at h
        cases hn : next_i16 true l with
        | error e => rw [hn] at h; cases h
        | ok p =>
          obtain ⟨x, l1⟩ := p
          rw [hn] at h
          obtain ⟨hv, hl2⟩ : dispText r_m x = v ∧ l1 = l2 := by simpa using h
          subst hv
          subst hl2
          rcases next_i16_ok hn with ⟨a, hla, hnil, hok⟩ | ⟨a, bb, hla, hnil, hone, hok⟩
          · subst hla
            refine .inr (.inl ⟨a, rfl, rfl, fun t => ?_⟩)
            rw [disassemble_r_m]
            simp [hok t]
          · subst hla
            refine .inr (.inr ⟨a, bb, rfl, rfl, fun a2 => ?_, fun t => ?_⟩)
            · rw [disassemble_r_m]
              simp [hone a2]
            · rw [disassemble_r_m]
              simp [hok t]
      · by_cases h3 : m0d = 3
        · subst h3
          rw [disassemble_r_m] at h
          simp only [show ¬(3 = 0) by omega, show ¬(3 = 1) by omega, show ¬(3 = 2) by omega,
            if_false, if_pos rfl, ite_false] at h
          obtain ⟨hv, hl2⟩ : REG_NAME w r_m = v ∧ l = l2 := by simpa using h
          subst hv
          subst hl2
          refine .inl ⟨rfl, fun t => ?_⟩
          rw [disassemble_r_m]
          simp
        · rw [disassemble_r_m] at h
          simp only [if_neg h0, if_neg h1, if_neg h2, if_neg h3] at h
          cases h

/-- Arm 1 of `step` (register/memory with register): truncating the operand
bytes of a completed instruction yields `truncatedStream`. -/
theorem step_trunc_regmemreg (pos b : Nat) (rest : List Nat) (st : DState)
    (out : DState × List Nat) (hA : isRegMemReg b)
    (h : step pos b rest st = .ok out) :
    ∀ j, j < rest.length - out.2.length →
      step pos b (rest.take j) st = .error .truncatedStream := by
  intro j hj
  rw [step, if_pos hA] at h
  cases hu : next_u8 rest with
  | error e => rw [hu] at h; simp at h
  | ok p =>
    obtain ⟨byte2, r1⟩ := p
    rw [hu] at h
    simp only [] at h
    have hrest : rest = byte2 :: r1 := next_u8_ok hu
    subst hrest
    cases hd : disassemble_r_m (if b = 0x8D ∨ b = 0xC4 ∨ b = 0xC5 then 1 else b &&& 1)
        (byte2 >>> 6) (byte2 &&& 7) r1 with
    | error e2 => rw [hd] at h; simp at h
    | ok q =>
      obtain ⟨rmt, r2⟩ := q
      rw [hd] at h
      simp only [] at h
      have hout : out.2 = r2 := ite_ok_snd h
      rw [hout] at hj
      rcases disassemble_r_m_ok hd with ⟨hl2, hfun⟩ | ⟨a, hr1, hnil, hfun⟩ |
        ⟨a, bb, hr1, hnil, hone, hfun⟩
      · subst hl2
        have hjb : j < 1 := by simp at hj; omega
        interval_cases j
        rw [step, if_pos hA]
        rfl
      · subst hr1
        have hjb : j < 2 := by simp at hj; omega
        interval_cases j
        · rw [step, if_pos hA]
          rfl
        · rw [step, if_pos hA]
          simp only [List.take_succ_cons, List.take_zero, next_u8, hnil]
      · subst hr1
        have hjb : j < 3 := by simp at hj; omega
        interval_cases j
        · rw [step, if_pos hA]
          rfl
        · rw [step, if_pos hA]
          simp only [List.take_succ_cons, List.take_zero, next_u8, hnil]
        · rw [step, if_pos hA]
          simp only [List.take_succ_cons, List.take_zero, next_u8, hone]

/-- Arm 2 of `step` (immediate/grouped ops with a MOD OP R/M byte). -/
theorem step_trunc_immrm (pos b : Nat) (rest : List Nat) (st : DState)
    (out : DState × List Nat)
    (hA : ¬isRegMemReg b) (hB : isImmRM b)
    (h : step pos b rest st = .ok out) :
    ∀ j, j < rest.length - out.2.length →
      step pos b (rest.take j) st = .error .truncatedStream := by
  intro j hj
  rw [step, if_neg hA, if_pos hB] at h
  cases hu : next_u8 rest with
  | error e => rw [hu] at h; simp at h
  | ok p =>
    obtain ⟨byte2, r1⟩ := p
    rw [hu] at h
    simp only [] at h
    have hrest : rest = byte2 :: r1 := next_u8_ok hu
    subst hrest
    cases hd : disassemble_r_m (b &&& 1) (byte2 >>> 6) (byte2 &&& 7) r1 with
    | error e2 => rw [hd] at h; simp at h
    | ok q =>
      obtain ⟨rmt, r2⟩ := q
      rw [hd] at h
      simp only [] at h
      by_cases hmt : ((b >>> 2 == 0x31 || (b >>> 2 == 0x3D && (byte2 >>> 3) &&& 7 == 0)) ||
          b >>> 2 == 0x20) = true
      · rw [if_pos hmt] at h
        cases hn : next_i16 (((b >>> 2 == 0x31 || (b >>> 2 == 0x3D && (byte2 >>> 3) &&& 7 == 0)) ||
            (b >>> 1) &&& 1 == 0) && b &&& 1 == 1) r2 with
        | error e3 => rw [hn] at h; simp at h
        | ok q2 =>
          obtain ⟨data, r3⟩ := q2
          rw [hn] at h
          simp only [] at h
          have hout : out.2 = r3 := eq_ok_snd h
          rw [hout] at hj
          rcases disassemble_r_m_ok hd with ⟨hl2, hfun⟩ | ⟨a, hr1, hnil, hfun⟩ |
            ⟨a, bb, hr1, hnil, hone, hfun⟩ <;>
          rcases next_i16_ok hn with ⟨c, hr2, hnil2, hfun2⟩ | ⟨c, d2, hr2, hnil2, hone2, hfun2⟩
          · -- dis 0, data 1
            subst hl2; subst hr2
            have hjb : j < 2 := by simp at hj; omega
            interval_cases j
            · rw [step, if_neg hA, if_pos hB]; rfl
            · rw [step, if_neg hA, if_pos hB]
              simp only [List.take_succ_cons, List.take_zero, next_u8, hfun, if_pos hmt, hnil2]
          · -- dis 0, data 2
            subst hl2; subst hr2
            have hjb : j < 3 := by simp at hj; omega
            interval_cases j
            · rw [step, if_neg hA, if_pos hB]; rfl
            · rw [step, if_neg hA, if_pos hB]
              simp only [List.take_succ_cons, List.take_zero, next_u8, hfun, if_pos hmt, hnil2]
            · rw [step, if_neg hA, if_pos hB]
              simp only [List.take_succ_cons, List.take_zero, next_u8, hfun, if_pos hmt, hone2]
          · -- dis 1, data 1
            subst hr1; subst hr2
            have hjb : j < 3 := by simp at hj; omega
            interval_cases j
            · rw [step, if_neg hA, if_pos hB]; rfl
            · rw [step, if_neg hA, if_pos hB]
              simp only [List.take_succ_cons, List.take_zero, next_u8, hnil]
            · rw [step, if_neg hA, if_pos hB]
              simp only [List.take_succ_cons, List.take_zero, next_u8, hfun, if_pos hmt, hnil2]
          · -- dis 1, data 2
            subst hr1; subst hr2
            have hjb : j < 4 := by simp at hj; omega
            interval_cases j
            · rw [step, if_neg hA, if_pos hB]; rfl
            · rw [step, if_neg hA, if_pos hB]
              simp only [List.take_succ_cons, List.take_zero, next_u8, hnil]
            · rw [step, if_neg hA, if_pos hB]
              simp only [List.take_succ_cons, List.take_zero, next_u8, hfun, if_pos hmt, hnil2]
            · rw [step, if_neg hA, if_pos hB]
              simp only [List.take_succ_cons, List.take_zero, next_u8, hfun, if_pos hmt, hone2]
          · -- dis 2, data 1
            subst hr1; subst hr2
            have hjb : j < 4 := by simp at hj; omega
            interval_cases j
            · rw [step, if_neg hA, if_pos hB]; rfl
            · rw [step, if_neg hA, if_pos hB]
              simp only [List.take_succ_cons, List.take_zero, next_u8, hnil]
            · rw [step, if_neg hA, if_pos hB]
              simp only [List.take_succ_cons, List.take_zero, next_u8, hone]
            · rw [step, if_neg hA, if_pos hB]
              simp only [List.take_succ_cons, List.take_zero, next_u8, hfun, if_pos hmt, hnil2]
          · -- dis 2, data 2
            subst hr1; subst hr2
            have hjb : j < 5 := by simp at hj; omega
            interval_cases j
            · rw [step, if_neg hA, if_pos hB]; rfl
            · rw [step, if_neg hA, if_pos hB]
              simp only [List.take_succ_cons, List.take_zero, next_u8, hnil]
            · rw [step, if_neg hA, if_pos hB]
              simp only [List.take_succ_cons, List.take_zero, next_u8, hone]
            · rw [step, if_neg hA, if_pos hB]
              simp only [List.take_succ_cons, List.take_zero, next_u8, hfun, if_pos hmt, hnil2]
            · rw [step, if_neg hA, if_pos hB]
              simp only [List.take_succ_cons, List.take_zero, next_u8, hfun, if_pos hmt, hone2]
      · rw [if_neg hmt] at h
        have hout : out.2 = r2 := by
          by_cases hg : b >>> 2 = 0x34
          · rw [if_pos hg] at h
            exact eq_ok_snd h
          · rw [if_neg hg] at h
            by_cases hff : b = 0xFF ∧ ((byte2 >>> 3) &&& 7 = 3 ∨ (byte2 >>> 3) &&& 7 = 5)
            · rw [if_pos hff] at h
              exact eq_ok_snd h
            · rw [if_neg hff] at h
              exact eq_ok_snd h
        rw [hout] at hj
        rcases disassemble_r_m_ok hd with ⟨hl2, hfun⟩ | ⟨a, hr1, hnil, hfun⟩ |
          ⟨a, bb, hr1, hnil, hone, hfun⟩
        · subst hl2
          have hjb : j < 1 := by simp at hj; omega
          interval_cases j
          rw [step, if_neg hA, if_pos hB]; rfl
        · subst hr1
          have hjb : j < 2 := by simp at hj; omega
          interval_cases j
          · rw [step, if_neg hA, if_pos hB]; rfl
          · rw [step, if_neg hA, if_pos hB]
            simp only [List.take_succ_cons, List.take_zero, next_u8, hnil]
        · subst hr1
          have hjb : j < 3 := by simp at hj; omega
          interval_cases j
          · rw [step, if_neg hA, if_pos hB]; rfl
          · rw [step, if_neg hA, if_pos hB]
            simp only [List.take_succ_cons, List.take_zero, next_u8, hnil]
          · rw [step, if_neg hA, if_pos hB]
            simp only [List.take_succ_cons, List.take_zero, next_u8, hone]

/-- Arm 3 of `step` (MOV immediate to register). -/
theorem step_trunc_movimm (pos b : Nat) (rest : List Nat) (st : DState)
    (out : DState × List Nat)
    (h1 : ¬isRegMemReg b) (h2 : ¬isImmRM b) (hC : isMovImmReg b)
    (h : step pos b rest st = .ok out) :
    ∀ j, j < rest.length - out.2.length →
      step pos b (rest.take j) st = .error .truncatedStream := by
  intro j hj
  rw [step, if_neg h1, if_neg h2, if_pos hC] at h
  simp only [] at h
  cases hn : next_i16 ((b >>> 3) &&& 1 == 1) rest with
  | error e => rw [hn] at h; simp at h
  | ok p =>
    obtain ⟨data, r1⟩ := p
    rw [hn] at h
    simp only [] at h
    have hout : out.2 = r1 := eq_ok_snd h
    rw [hout] at hj
    rcases next_i16_ok hn with ⟨a, hr, hnil, hfun⟩ | ⟨a, bb, hr, hnil, hone, hfun⟩
    · subst hr
      have hjb : j < 1 := by simp at hj; omega
      interval_cases j
      rw [step, if_neg h1, if_neg h2, if_pos hC]
      simp only [List.take_zero, next_i16_nil]
    · subst hr
      have hjb : j < 2 := by simp at hj; omega
      interval_cases j
      · rw [step, if_neg h1, if_neg h2, if_pos hC]
        simp only [List.take_zero, next_i16_nil]
      · rw [step, if_neg h1, if_neg h2, if_pos hC]
        simp only [List.take_succ_cons, List.take_zero, hone]

/-- Arm 4 of `step` (accumulator forms). -/
theorem step_trunc_acc (pos b : Nat) (rest : List Nat) (st : DState)
    (out : DState × List Nat)
    (h1 : ¬isRegMemReg b) (h2 : ¬isImmRM b) (h3 : ¬isMovImmReg b) (hD : isAcc b)
    (h : step pos b rest st = .ok out) :
    ∀ j, j < rest.length - out.2.length →
      step pos b (rest.take j) st = .error .truncatedStream := by
  intro j hj
  rw [step, if_neg h1, if_neg h2, if_neg h3, if_pos hD] at h
  simp only [] at h
  by_cases hio : (b >>> 2 == 0x39) = true
  · rw [if_pos hio] at h
    cases hu : next_u8 rest with
    | error e => rw [hu] at h; simp [Except.map] at h
    | ok p =>
      obtain ⟨a0, r1⟩ := p
      rw [hu] at h
      simp only [Except.map] at h
      have hout : out.2 = r1 := ite_ok_snd h
      rw [hout] at hj
      have hr : rest = a0 :: r1 := next_u8_ok hu
      subst hr
      have hjb : j < 1 := by simp at hj; omega
      interval_cases j
      rw [step, if_neg h1, if_neg h2, if_neg h3, if_pos hD]
      simp only [if_pos hio, List.take_zero, next_u8, Except.map]
  · rw [if_neg hio] at h
    cases hn : next_i16 (b >>> 2 == 0x28 || b &&& 1 == 1) rest with
    | error e => rw [hn] at h; simp at h
    | ok p =>
      obtain ⟨data, r1⟩ := p
      rw [hn] at h
      simp only [] at h
      have hout : out.2 = r1 := ite_ok_snd h
      rw [hout] at hj
      rcases next_i16_ok hn with ⟨a, hr, hnil, hfun⟩ | ⟨a, bb, hr, hnil, hone, hfun⟩
      · subst hr
        have hjb : j < 1 := by simp at hj; omega
        interval_cases j
        rw [step, if_neg h1, if_neg h2, if_neg h3, if_pos hD]
        simp only [if_neg hio, List.take_zero, next_i16_nil]
      · subst hr
        have hjb : j < 2 := by simp at hj; omega
        interval_cases j
        · rw [step, if_neg h1, if_neg h2, if_neg h3, if_pos hD]
          simp only [if_neg hio, List.take_zero, next_i16_nil]
        · rw [step, if_neg h1, if_neg h2, if_neg h3, if_pos hD]
          simp only [if_neg hio, List.take_succ_cons, List.take_zero, hone]

/-- Whenever `step` completes an instruction at any position and state,
cutting the stream anywhere strictly inside the consumed operand bytes
makes `step` fail with `truncatedStream` (the arms that consume nothing
are covered vacuously). -/
theorem step_ok_truncation (pos b : Nat) (rest : List Nat) (st : DState)
    (out : DState × List Nat) (h : step pos b rest st = .ok out) :
    ∀ j, j < rest.length - out.2.length →
      step pos b (rest.take j) st = .error .truncatedStream := by
  by_cases h1 : isRegMemReg b
  · exact step_trunc_regmemreg pos b rest st out h1 h
  by_cases h2 : isImmRM b
  · exact step_trunc_immrm pos b rest st out h1 h2 h
  by_cases h3 : isMovImmReg b
  · exact step_trunc_movimm pos b rest st out h1 h2 h3 h
  by_cases h4 : isAcc b
  · exact step_trunc_acc pos b rest st out h1 h2 h3 h4 h
  by_cases h5 : isUnaryReg b
  · intro j hj
    rw [step, if_neg h1, if_neg h2, if_neg h3, if_neg h4, if_pos h5] at h
    simp only [] at h
    rw [eq_ok_snd h] at hj
    omega
  by_cases h6 : isStackSeg b
  · intro j hj
    rw [step, if_neg h1, if_neg h2, if_neg h3, if_neg h4, if_neg h5, if_pos h6] at h
    simp only [] at h
    rw [eq_ok_snd h] at hj
    omega
  by_cases h7 : isSegmentByte b
  · intro j hj
    rw [step, if_neg h1, if_neg h2, if_neg h3, if_neg h4, if_neg h5, if_neg h6,
      if_pos h7] at h
    rw [eq_ok_snd h] at hj
    omega
  by_cases h8 : isXchgAcc b
  · intro j hj
    rw [step, if_neg h1, if_neg h2, if_neg h3, if_neg h4, if_neg h5, if_neg h6, if_neg h7,
      if_pos h8] at h
    rw [eq_ok_snd h] at hj
    omega
  by_cases h9 : isInOutDx b
  · intro j hj
    rw [step, if_neg h1, if_neg h2, if_neg h3, if_neg h4, if_neg h5, if_neg h6, if_neg h7,
      if_neg h8, if_pos h9] at h
    simp only [] at h
    rw [ite_ok_snd h] at hj
    omega
  by_cases h10 : isRetData b
  · intro j hj
    rw [step, if_neg h1, if_neg h2, if_neg h3, if_neg h4, if_neg h5, if_neg h6, if_neg h7,
      if_neg h8, if_neg h9, if_pos h10] at h
    simp only [] at h
    cases hn : next_i16 true rest with
    | error e => rw [hn] at h; simp at h
    | ok p =>
      obtain ⟨data, r1⟩ := p
      rw [hn] at h
      simp only [] at h
      rw [eq_ok_snd h] at hj
      rcases next_i16_ok hn with ⟨a, hr, -, -⟩ | ⟨a, bb, hr, -, -, -⟩
      · subst hr
        have hjb : j < 1 := by simp at hj; omega
        interval_cases j
        rw [step, if_neg h1, if_neg h2, if_neg h3, if_neg h4, if_neg h5, if_neg h6, if_neg h7,
          if_neg h8, if_neg h9, if_pos h10]
        rfl
      · subst hr
        have hjb : j < 2 := by simp at hj; omega
        interval_cases j
        · rw [step, if_neg h1, if_neg h2, if_neg h3, if_neg h4, if_neg h5, if_neg h6, if_neg h7,
            if_neg h8, if_neg h9, if_pos h10]
          rfl
        · rw [step, if_neg h1, if_neg h2, if_neg h3, if_neg h4, if_neg h5, if_neg h6, if_neg h7,
            if_neg h8, if_neg h9, if_pos h10]
          rfl
  by_cases h11 : b = 0xCD
  · intro j hj
    rw [step, if_neg h1, if_neg h2, if_neg h3, if_neg h4, if_neg h5, if_neg h6, if_neg h7,
      if_neg h8, if_neg h9, if_neg h10, if_pos h11] at h
    cases hu : next_u8 rest with
    | error e => rw [hu] at h; simp at h
    | ok p =>
      obtain ⟨data, r1⟩ := p
      rw [hu] at h
      simp only [] at h
      rw [eq_ok_snd h] at hj
      obtain rfl : rest = data :: r1 := next_u8_ok hu
      have hjb : j < 1 := by simp at hj; omega
      interval_cases j
      rw [step, if_neg h1, if_neg h2, if_neg h3, if_neg h4, if_neg h5, if_neg h6, if_neg h7,
        if_neg h8, if_neg h9, if_neg h10, if_pos h11]
      rfl
  by_cases h12 : b = 0xF3
  · intro j hj
    rw [step, if_neg h1, if_neg h2, if_neg h3, if_neg h4, if_neg h5, if_neg h6, if_neg h7,
      if_neg h8, if_neg h9, if_neg h10, if_neg h11, if_pos h12] at h
    cases hu : next_u8 rest with
    | error e => rw [hu] at h; simp at h
    | ok p =>
      obtain ⟨byte2, r1⟩ := p
      rw [hu] at h
      simp only [] at h
      have hout : out.2 = r1 := by
        by_cases hc : (byte2 >>> 1) &&& 7 = 2 ∨ (byte2 >>> 1) &&& 7 = 3 ∨
            (byte2 >>> 1) &&& 7 = 5 ∨ (byte2 >>> 1) &&& 7 = 6 ∨ (byte2 >>> 1) &&& 7 = 7
        · rw [if_pos hc] at h
          exact eq_ok_snd h
        · rw [if_neg hc] at h
          cases h
      rw [hout] at hj
      obtain rfl : rest = byte2 :: r1 := next_u8_ok hu
      have hjb : j < 1 := by simp at hj; omega
      interval_cases j
      rw [step, if_neg h1, if_neg h2, if_neg h3, if_neg h4, if_neg h5, if_neg h6, if_neg h7,
        if_neg h8, if_neg h9, if_neg h10, if_neg h11, if_pos h12]
      rfl
  by_cases h13 : isShortJump b
  · intro j hj
    rw [step, if_neg h1, if_neg h2, if_neg h3, if_neg h4, if_neg h5, if_neg h6, if_neg h7,
      if_neg h8, if_neg h9, if_neg h10, if_neg h11, if_neg h12, if_pos h13] at h
    simp only [] at h
    cases hn : next_i8 rest with
    | error e => rw [hn] at h; simp at h
    | ok p =>
      obtain ⟨v, r1⟩ := p
      rw [hn] at h
      simp only [] at h
      have hout : out.2 = r1 := by
        by_cases hng : (pos : Int) + 2 + v < 0
        · rw [if_pos hng] at h
          cases h
        · rw [if_neg hng] at h
          exact eq_ok_snd h
      rw [hout] at hj
      obtain ⟨a, rfl⟩ := next_i8_ok hn
      have hjb : j < 1 := by simp at hj; omega
      interval_cases j
      rw [step, if_neg h1, if_neg h2, if_neg h3, if_neg h4, if_neg h5, if_neg h6, if_neg h7,
        if_neg h8, if_neg h9, if_neg h10, if_neg h11, if_neg h12, if_pos h13]
      rfl
  by_cases h14 : isNearCallJmp b
  · intro j hj
    rw [step, if_neg h1, if_neg h2, if_neg h3, if_neg h4, if_neg h5, if_neg h6, if_neg h7,
      if_neg h8, if_neg h9, if_neg h10, if_neg h11, if_neg h12, if_neg h13, if_pos h14] at h
    simp only [] at h
    cases hn : next_i16 true rest with
    | error e => rw [hn] at h; simp at h
    | ok p =>
      obtain ⟨v, r1⟩ := p
      rw [hn] at h
      simp only [] at h
      have hout : out.2 = r1 := by
        by_cases hng : (pos : Int) + 3 + v < 0
        · rw [if_pos hng] at h
          cases h
        · rw [if_neg hng] at h
          exact eq_ok_snd h
      rw [hout] at hj
      rcases next_i16_ok hn with ⟨a, hr, -, -⟩ | ⟨a, bb, hr, -, -, -⟩
      · subst hr
        have hjb : j < 1 := by simp at hj; omega
        interval_cases j
        rw [step, if_neg h1, if_neg h2, if_neg h3, if_neg h4, if_neg h5, if_neg h6, if_neg h7,
          if_neg h8, if_neg h9, if_neg h10, if_neg h11, if_neg h12, if_neg h13, if_pos h14]
        rfl
      · subst hr
        have hjb : j < 2 := by simp at hj; omega
        interval_cases j
        · rw [step, if_neg h1, if_neg h2, if_neg h3, if_neg h4, if_neg h5, if_neg h6, if_neg h7,
            if_neg h8, if_neg h9, if_neg h10, if_neg h11, if_neg h12, if_neg h13, if_pos h14]
          rfl
        · rw [step, if_neg h1, if_neg h2, if_neg h3, if_neg h4, if_neg h5, if_neg h6, if_neg h7,
            if_neg h8, if_neg h9, if_neg h10, if_neg h11, if_neg h12, if_neg h13, if_pos h14]
          rfl
  by_cases h15 : isFarCallJmp b
  · intro j hj
    rw [step, if_neg h1, if_neg h2, if_neg h3, if_neg h4, if_neg h5, if_neg h6, if_neg h7,
      if_neg h8, if_neg h9, if_neg h10, if_neg h11, if_neg h12, if_neg h13, if_neg h14,
      if_pos h15] at h
    simp only [] at h
    cases hn1 : next_i16 true rest with
    | error e => rw [hn1] at h; simp at h
    | ok p =>
      obtain ⟨ip, r1⟩ := p
      rw [hn1] at h
      simp only [] at h
      cases hn2 : next_i16 true r1 with
      | error e => rw [hn2] at h; simp at h
      | ok q =>
        obtain ⟨cs, r2⟩ := q
        rw [hn2] at h
        simp only [] at h
        rw [eq_ok_snd h] at hj
        rcases next_i16_ok hn1 with ⟨a, hr, -, -⟩ | ⟨a, bb, hr, -, -, -⟩ <;>
          rcases next_i16_ok hn2 with ⟨c, hr2, -, -⟩ | ⟨c, d2, hr2, -, -, -⟩ <;>
          subst hr2 <;> subst hr
        · have hjb : j < 2 := by simp at hj; omega
          interval_cases j <;>
          · rw [step, if_neg h1, if_neg h2, if_neg h3, if_neg h4, if_neg h5, if_neg h6,
              if_neg h7, if_neg h8, if_neg h9, if_neg h10, if_neg h11, if_neg h12, if_neg h13,
              if_neg h14, if_pos h15]
            rfl
        · have hjb : j < 3 := by simp at hj; omega
          interval_cases j <;>
          · rw [step, if_neg h1, if_neg h2, if_neg h3, if_neg h4, if_neg h5, if_neg h6,
              if_neg h7, if_neg h8, if_neg h9, if_neg h10, if_neg h11, if_neg h12, if_neg h13,
              if_neg h14, if_pos h15]
            rfl
        · have hjb : j < 3 := by simp at hj; omega
          interval_cases j <;>
          · rw [step, if_neg h1, if_neg h2, if_neg h3, if_neg h4, if_neg h5, if_neg h6,
              if_neg h7, if_neg h8, if_neg h9, if_neg h10, if_neg h11, if_neg h12, if_neg h13,
              if_neg h14, if_pos h15]
            rfl
        · have hjb : j < 4 := by simp at hj; omega
          interval_cases j <;>
          · rw [step, if_neg h1, if_neg h2, if_neg h3, if_neg h4, if_neg h5, if_neg h6,
              if_neg h7, if_neg h8, if_neg h9, if_neg h10, if_neg h11, if_neg h12, if_neg h13,
              if_neg h14, if_pos h15]
            rfl
  by_cases h16 : isAsciiAdjust b
  · intro j hj
    rw [step, if_neg h1, if_neg h2, if_neg h3, if_neg h4, if_neg h5, if_neg h6, if_neg h7,
      if_neg h8, if_neg h9, if_neg h10, if_neg h11, if_neg h12, if_neg h13, if_neg h14,
      if_neg h15, if_pos h16] at h
    cases hu : next_u8 rest with
    | error e => rw [hu] at h; simp at h
    | ok p =>
      obtain ⟨byte2, r1⟩ := p
      rw [hu] at h
      simp only [] at h
      have hout : out.2 = r1 := by
        by_cases hs : byte2 = 0x0A
        · rw [if_pos hs] at h
          exact eq_ok_snd h
        · rw [if_neg hs] at h
          cases h
      rw [hout] at hj
      obtain rfl : rest = byte2 :: r1 := next_u8_ok hu
      have hjb : j < 1 := by simp at hj; omega
      interval_cases j
      rw [step, if_neg h1, if_neg h2, if_neg h3, if_neg h4, if_neg h5, if_neg h6, if_neg h7,
        if_neg h8, if_neg h9, if_neg h10, if_neg h11, if_neg h12, if_neg h13, if_neg h14,
        if_neg h15, if_pos h16]
      rfl
  intro j hj
  rw [step, if_neg h1, if_neg h2, if_neg h3, if_neg h4, if_neg h5, if_neg h6, if_neg h7,
    if_neg h8, if_neg h9, if_neg h10, if_neg h11, if_neg h12, if_neg h13, if_neg h14,
    if_neg h15, if_neg h16] at h
  have hout : out.2 = rest := by
    by_cases hf : b = 0xF0
    · rw [if_pos hf] at h
      exact eq_ok_snd h
    · rw [if_neg hf] at h
      exact ite_ok_snd h
  rw [hout] at hj
  omega

/-- A `step` failure aborts the decode loop with the same error. -/
theorem decodeLoop_step_error (fuel pos b : Nat) (rest : List Nat) (st : DState) (e : DErr)
    (h : step pos b rest st = .error e) :
    decodeLoop (fuel + 1) pos (b :: rest) st = .error e := by
  simp [decodeLoop, h]

/-- An aborted decode yields an erroring `run`: no instruction entry and no
output text survive. -/
theorem run_of_decode_error (bytes : List Nat) (e : DErr)
    (h : decode bytes = .error e) : run bytes = .error e := by
  simp [run, h, Except.map]

/-- Claim C2: the spec demands that a pending prefix is consumed and
cleared by the immediately following instruction decode regardless of that
instruction's family. The code violates this for the segment override: the
`cs` override set at position 0 is not consumed by the following `hlt`
(a fallback-arm instruction which never touches the override), and it is
applied two instructions later to the `add`, which renders with `cs:`.
Decoding the same trailing bytes without the override byte shows the
leaked prefix is what produced the `cs:` text. -/
theorem segment_override_persists_past_next_instruction :
    run [0x2E, 0xF4, 0x01, 0x18] = .ok "bits 16\nhlt\nadd cs:[bx + si], bx\n" ∧
    run [0xF4, 0x01, 0x18] = .ok "bits 16\nhlt\nadd [bx + si], bx\n" :=
  ⟨rfl, rfl⟩

set_option maxRecDepth 10000 in
/-- Claim C3: if the input stream ends while a matched opcode still
requires trailing bytes, the decode fails fatally with `truncatedStream`,
inserts no decoded-instruction entry and produces no further output.
In order: (1) whenever `step` completes an instruction, every strict
truncation of its operand bytes makes `step` fail with `truncatedStream`,
at any stream position and decoder state (so the result holds with any
preceding instructions and at any required trailing byte, not only the
first); (2) a failing `step` aborts the whole decode loop with its error;
(3) an aborted decode produces no output at all; (4) exhaustively, all
256 leading bytes whose arm consumes trailing bytes fail on the
single-byte stream; (5)-(8) concrete later-byte and mid-stream
truncations: `0x89` missing its 16-bit direct address, `0x80 0x06 0x00
0x00` missing its immediate data byte, `0x9A` missing the fourth far-call
byte, and a truncated `0x89` after a complete instruction. -/
theorem truncated_stream_is_fatal :
    (∀ (pos b : Nat) (rest : List Nat) (st : DState) (out : DState × List Nat),
        step pos b rest st = .ok out →
        ∀ j, j < rest.length - out.2.length →
          step pos b (rest.take j) st = .error .truncatedStream) ∧
    (∀ (fuel pos b : Nat) (rest : List Nat) (st : DState) (e : DErr),
        step pos b rest st = .error e →
        decodeLoop (fuel + 1) pos (b :: rest) st = .error e) ∧
    (∀ (bytes : List Nat) (e : DErr), decode bytes = .error e → run bytes = .error e) ∧
    (∀ b : Fin 256, requiresTrailing b.val → run [b.val] = .error .truncatedStream) ∧
    run [0x89, 0x06] = .error .truncatedStream ∧
    run [0x80, 0x06, 0x00, 0x00] = .error .truncatedStream ∧
    run [0x9A, 0x00, 0x00, 0x00] = .error .truncatedStream ∧
    run [0x90, 0x89] = .error .truncatedStream := by
  refine ⟨step_ok_truncation, decodeLoop_step_error, run_of_decode_error,
    by decide, rfl, rfl, rfl, rfl⟩

/-- Witness for C3: `10001001 00000110` completes with two more bytes but
is truncated after its ModRM byte, and the claim's lone example byte. -/
theorem truncated_stream_is_fatal_witness :
    step 0 0x89 [0x06] initState = .error .truncatedStream ∧
    run [0x89] = .error .truncatedStream :=
  ⟨truncated_stream_is_fatal.1 0 0x89 [0x06, 0x34, 0x12] initState
      (addInstr initState 0 "mov [4660], ax\n", []) rfl 1 (by decide),
   truncated_stream_is_fatal.2.2.2.1 ⟨0x89, by decide⟩ (by decide)⟩

set_option synthInstance.maxSize 2000 in
set_option synthInstance.maxHeartbeats 1000000 in
set_option maxHeartbeats 8000000 in
set_option maxRecDepth 20000 in
/-- Claim C4: a leading byte matching no known instruction family does not
abort the decode: alone it yields exactly one diagnostic comment line with
its raw bit pattern, and surrounded by known instructions the comment line
appears at its own position while decoding continues from the next byte. -/
theorem unknown_opcode_comment_and_continue :
    ∀ b : Fin 256, isUnknown b.val →
      run [b.val] = .ok ("bits 16\n" ++ commentText b.val) ∧
      run [0x90, b.val, 0x90] =
        .ok ("bits 16\nxchg ax, ax\n" ++ commentText b.val ++ "xchg ax, ax\n") := by
  decide

set_option synthInstance.maxSize 2000 in
set_option synthInstance.maxHeartbeats 1000000 in
/-- Witness for C4 at the unknown byte `0x60`. -/
theorem unknown_opcode_comment_and_continue_witness :
    run [0x60] = .ok ("bits 16\n" ++ commentText 0x60) ∧
    run [0x90, 0x60, 0x90] =
      .ok ("bits 16\nxchg ax, ax\n" ++ commentText 0x60 ++ "xchg ax, ax\n") :=
  unknown_opcode_comment_and_continue ⟨0x60, by decide⟩ (by decide)

/-- Claim C5: in modes 01 and 10, for any r/m field, the effective-address
text renders a zero displacement with no offset (never "+ 0"), a positive
displacement with " + " and the value, and a negative displacement with
" - " and the absolute value. -/
theorem displacement_sign_invariant (w rm lo hi : Nat) (rest : List Nat) :
    disassemble_r_m w 1 rm (lo :: rest) = .ok (dispText rm (toI8 lo), rest) ∧
    disassemble_r_m w 2 rm (lo :: hi :: rest) = .ok (dispText rm (toI16 lo hi), rest) ∧
    (∀ d : Int, d = 0 → dispText rm d = "[" ++ R_M_NAME rm ++ "]") ∧
    (∀ d : Int, 0 < d → dispText rm d = "[" ++ R_M_NAME rm ++ " + " ++ toString d ++ "]") ∧
    (∀ d : Int, d < 0 → dispText rm d = "[" ++ R_M_NAME rm ++ " - " ++ toString (-d) ++ "]") := by
  refine ⟨rfl, rfl, ?_, ?_, ?_⟩
  · intro d hd; subst hd; rfl
  · intro d hd; unfold dispText; rw [if_pos hd]
  · intro d hd; unfold dispText; rw [if_neg (by omega), if_pos hd]

/-- Witness for C5: mode 01, r/m = 110 (bp), displacement byte 251 = -5. -/
theorem displacement_sign_invariant_witness :
    disassemble_r_m 1 1 6 [251] = .ok ("[bp - 5]", []) := by
  have h := displacement_sign_invariant 1 6 251 0 []
  rw [h.1, h.2.2.2.2 (toI8 251) (by decide)]
  rfl

/-- Counterexample to claim C6: the bytes `01110101 11111110` do produce a
label declaration for target 0 immediately before the jump, but the
instruction line is "jne label0 ; -2 short\n", not the claimed
"jne label0 ; -2\n" (the comment also carries the word "short"). -/
theorem jne_minus2_line_counterexample :
    run [0x75, 0xFE] = .ok "bits 16\nlabel0:\njne label0 ; -2 short\n" ∧
    ("bits 16\nlabel0:\njne label0 ; -2 short\n" : String) ≠
      "bits 16\nlabel0:\njne label0 ; -2\n" :=
  ⟨rfl, by decide⟩

/-- Amended C6: decoding `01110101 11111110` at position 0 computes branch
target 0, declares `label0` immediately before the jump itself, and emits
the instruction line "jne label0 ; -2 short\n". -/
theorem jne_minus2_label_and_line :
    run [0x75, 0xFE] = .ok "bits 16\nlabel0:\njne label0 ; -2 short\n" :=
  rfl

/-- Counterexample to claim C7: for the claim's bytes
`11110000 00000001 11000011` the ADD opcode `0x01` has its direction bit
clear, so the locked and unlocked decodes emit the ADD operands in the
same order ("add bx, ax" both times), not opposite orders. -/
theorem lock_add_operand_order_counterexample :
    run [0xF0, 0x01, 0xC3] = .ok "bits 16\nlock add bx, ax\n" ∧
    run [0x01, 0xC3] = .ok "bits 16\nadd bx, ax\n" :=
  ⟨rfl, rfl⟩

/-- Amended C7: the lock-induced operand swap happens when the direction
bit is set. For ADD opcode `0x03` (direction bit set) the unlocked decode
emits "add ax, bx" while the locked decode emits "add bx, ax" — opposite
orders; with direction bit clear (`0x01`) the order is unchanged. -/
theorem lock_add_operand_order_swap_d1 :
    run [0xF0, 0x03, 0xC3] = .ok "bits 16\nlock add bx, ax\n" ∧
    run [0x03, 0xC3] = .ok "bits 16\nadd ax, bx\n" :=
  ⟨rfl, rfl⟩

/-- Claim C8: a recorded branch target that is not a decoded-instruction
start never yields a label declaration line — no instruction position ever
looks up to that label name, and the emission loop only prints a
declaration at instruction positions — and the (label, target) pair enters
the `unlabeled` substitution table, so every reference to it in
instruction text is replaced by the bare numeric byte offset. The concrete
stream `11101011 00000000` (jmp to target 2, one 2-byte instruction)
shows the end-to-end result: no declaration anywhere and the reference
rendered as the numeral 2. -/
theorem dangling_target_never_declared :
    (∀ (labels instrs : List (Nat × String)) (t : Nat) (lab : String),
        (t, lab) ∈ labels →
        lookupN instrs t = none →
        (labels.map Prod.snd).Nodup →
        (∀ p ∈ instrs, lookupN labels p.1 ≠ some lab) ∧
          (lab ++ " ", t) ∈ unlabeledOf labels instrs) ∧
      run [0xEB, 0x00] = .ok "bits 16\njmp 2; 0 short\n" := by
  constructor
  · intro labels instrs t lab hmem hnone hnd
    constructor
    · intro p hp hlook
      have h1 : (p.1, lab) ∈ labels := lookupN_mem hlook
      have h2 : p.1 = t := nodupSnd_eq h1 hmem hnd
      have h3 := lookupN_ne_none hp
      rw [h2, hnone] at h3
      exact h3 rfl
    · unfold unlabeledOf
      refine List.mem_map.mpr ⟨(t, lab), ?_, rfl⟩
      refine List.mem_filter.mpr ⟨hmem, ?_⟩
      rw [hnone]
      rfl
  · rfl

/-- Witness for C8 at the label table and instruction map produced by the
stream `11101011 00000000`. -/
theorem dangling_target_never_declared_witness :
    (∀ p ∈ [((0 : Nat), "jmp label0 ; 0 short\n")],
        lookupN [(2, "label0")] p.1 ≠ some "label0") ∧
      ("label0 ", 2) ∈ unlabeledOf [(2, "label0")] [(0, "jmp label0 ; 0 short\n")] :=
  dangling_target_never_declared.1 [(2, "label0")] [(0, "jmp label0 ; 0 short\n")] 2 "label0"
    (by decide) (by decide) (by decide)

/-- Claim C9 (code bug): the spec's fixed one-byte table is supposed to
decode the string operations without a repeat prefix, but the table in the
code has no such entries. Evaluating the code at the failing inputs: each
of the ten string-op bytes (`1010010x`, `1010011x`, `1010101x`,
`1010110x`, `1010111x`) falls through to the fallback and produces only a
diagnostic comment line carrying its raw bit pattern — which re-assembles
to nothing, breaking the code's own round-trip oracle for these valid
8086 bytes — while string-op mnemonic lines are produced only behind the
`0xF3` repeat prefix. -/
theorem string_op_no_rep_comment_lines :
    run [0xA4] = .ok "bits 16\n; 10100100\n" ∧
    run [0xA5] = .ok "bits 16\n; 10100101\n" ∧
    run [0xA6] = .ok "bits 16\n; 10100110\n" ∧
    run [0xA7] = .ok "bits 16\n; 10100111\n" ∧
    run [0xAA] = .ok "bits 16\n; 10101010\n" ∧
    run [0xAB] = .ok "bits 16\n; 10101011\n" ∧
    run [0xAC] = .ok "bits 16\n; 10101100\n" ∧
    run [0xAD] = .ok "bits 16\n; 10101101\n" ∧
    run [0xAE] = .ok "bits 16\n; 10101110\n" ∧
    run [0xAF] = .ok "bits 16\n; 10101111\n" ∧
    run [0xF3, 0xA4] = .ok "bits 16\nrep movsb\n" :=
  ⟨rfl, rfl, rfl, rfl, rfl, rfl, rfl, rfl, rfl, rfl, rfl⟩

/-- Claim C10: the short JMP `11101011 11111000` (displacement -8) at
position 0 computes the negative target -6; the
`checked_add_signed(..).unwrap()` panic is the fatal `negativeTarget`
error, so the decode aborts at the branch and emits nothing — in this
embedding the label table only ever stores natural-number positions. -/
theorem negative_branch_target_aborts :
    run [0xEB, 0xF8] = .error .negativeTarget :=
  rfl
